import Mathlib

/-!
Verification development for the CFDI XML deserialization library.

The repository declares a typed document model (`Comprobante` and its
subnodes) together with serde attribute-mapping annotations, a parse entry
point `parse_cfdi`, pure accessors (`get_uuid`, `get_fecha_timbrado`,
`get_conceptos`) and a flattening projector (`get_datos_principales`).

The structs, their field names, the wire attribute names (`rename`
annotations), the required/optional status of every field (plain type vs
`Option`), and the numeric vs textual typing are all taken from
`src/lib.rs`.  The generic XML-deserialization engine applied to those
declarations (the `quick_xml`/serde machinery behind `from_str`) is an
external crate whose code is not part of this repository; its semantics is
modelled here from the specification's mapping rules (§4.1): element tags
matched case-sensitively on their local name (namespaces ignored),
scalar fields read from attributes matched by exact string, required
fields failing the whole parse when absent, optional fields becoming
absent values, numeric attributes parsed as decimals, sequences collected
in wire order, and unknown elements/attributes silently ignored.
-/

namespace Cfdi

/-- An XML attribute: a name and a raw text value. -/
structure Attr where
  name : String
  value : String
deriving Repr, DecidableEq

/-- Modelled from the spec: the XML input as seen by the deserializer — an
element tree with a tag, attributes and child elements.  Text nodes are
irrelevant to this schema (every scalar field maps from an attribute,
§4.1) and are omitted. -/
inductive Xml where
  | elem (tag : String) (attrs : List Attr) (children : List Xml)
deriving Repr

/-- The tag of an element. -/
def Xml.tag : Xml → String
  | .elem t _ _ => t

/-- The attribute list of an element. -/
def Xml.attrs : Xml → List Attr
  | .elem _ a _ => a

/-- The child elements of an element. -/
def Xml.children : Xml → List Xml
  | .elem _ _ c => c

/-- Modelled from the spec: the local part of a (possibly
namespace-prefixed) tag name — everything after the last colon.
`localName "cfdi:Emisor" = "Emisor"`. -/
def localName (s : String) : String :=
  String.mk ((s.data.reverse.takeWhile (fun c => c ≠ ':')).reverse)

/-- Look an attribute up by exact name; `none` when absent. -/
def getAttr (attrs : List Attr) (n : String) : Option String :=
  (attrs.find? (fun a => a.name == n)).map Attr.value

/-- First child element whose local tag name is `t`. -/
def findChild (children : List Xml) (t : String) : Option Xml :=
  children.find? (fun x => localName x.tag == t)

/-- All child elements whose local tag name is `t`, in wire order. -/
def childrenNamed (children : List Xml) (t : String) : List Xml :=
  children.filter (fun x => localName x.tag == t)

/-- Numeric value of a list of decimal digits. -/
def digitsVal (l : List Char) : Nat :=
  l.foldl (fun n c => n * 10 + (c.toNat - 48)) 0

/-- The rational denoted by a sign, an integer part and a fractional part. -/
def decOfParts (neg : Bool) (ip fp : List Char) : Rat :=
  let q : Rat := mkRat (Int.ofNat (digitsVal (ip ++ fp))) (10 ^ fp.length)
  if neg then -q else q

/-- Modelled from the spec: parsing an attribute value as a floating-point
decimal (§4.1: "Numeric fields … parse as floating-point decimal; failure
to parse as a number is a hard parse failure").  The value is kept as an
exact rational, matching the spec's comparison "as parsed decimals". -/
def parseDec (s : String) : Option Rat :=
  let l := s.data
  let p := match l with
    | '-' :: r => (true, r)
    | '+' :: r => (false, r)
    | r => (false, r)
  let ip := p.2.takeWhile Char.isDigit
  let r₁ := p.2.dropWhile Char.isDigit
  match r₁ with
  | [] => if ip.isEmpty then none else some (decOfParts p.1 ip [])
  | '.' :: fr =>
    if fr.all Char.isDigit && !(ip.isEmpty && fr.isEmpty) then
      some (decOfParts p.1 ip fr)
    else none
  | _ => none

/-- Structured parse failure (§7): the single error taxonomy.  No partial
document accompanies an error. -/
inductive DeError where
  | malformed (msg : String)
  | missingField (entity field : String)
  | invalidNumber (entity field value : String)
deriving Repr, DecidableEq

/-- `Emisor` from src/lib.rs: Rfc, Nombre, RegimenFiscal — all required. -/
structure Emisor where
  rfc : String
  nombre : String
  regimen_fiscal : String
deriving Repr, DecidableEq

/-- `Receptor` from src/lib.rs: Rfc, Nombre, RegimenFiscalReceptor,
UsoCFDI — all required. -/
structure Receptor where
  rfc : String
  nombre : String
  regimen_fiscal : String
  uso_cfdi : String
deriving Repr, DecidableEq

/-- `Concepto` from src/lib.rs.  `cantidad` and `importe` are numeric
(`f32`, modelled as parsed decimals), `valor_unitario` is a plain
`String` holding the wire text, `unidad` and `descuento` are optional. -/
structure Concepto where
  clave_product : String
  cantidad : Rat
  clave_unidad : String
  unidad : Option String
  descripcion : String
  valor_unitario : String
  importe : Rat
  descuento : Option Rat
deriving Repr, DecidableEq

/-- `TimbreFiscalDigital` from src/lib.rs: Version, UUID, FechaTimbrado,
NoCertificadoSAT — all required. -/
structure TimbreFiscalDigital where
  version : String
  uuid : String
  fecha_timbrado : String
  no_certificado_sat : String
deriving Repr, DecidableEq

/-- `Complemento` from src/lib.rs: an optional `TimbreFiscalDigital`. -/
structure Complemento where
  timbre_fiscal_digital : Option TimbreFiscalDigital
deriving Repr, DecidableEq

/-- `Conceptos` from src/lib.rs: the list of `Concepto` children. -/
structure Conceptos where
  concepto : List Concepto
deriving Repr, DecidableEq

/-- `Comprobante` from src/lib.rs: the root document record. -/
structure Comprobante where
  total : Rat
  subtotal : Rat
  fecha : String
  forma_pago : Option String
  descuento : Option String
  tipo_comprobante : String
  emisor : Emisor
  receptor : Receptor
  conceptos : Conceptos
  complemento : Option Complemento
deriving Repr, DecidableEq

/-- Modelled from the spec: read a required string attribute; absence
fails the whole parse with a missing-required-field error. -/
def reqAttr (entity : String) (attrs : List Attr) (n : String) :
    Except DeError String :=
  match getAttr attrs n with
  | some v => .ok v
  | none => .error (.missingField entity n)

/-- Modelled from the spec: read a required numeric attribute; absence is
a missing-required-field error, an unparseable number is a type-mismatch
error. -/
def reqNum (entity : String) (attrs : List Attr) (n : String) :
    Except DeError Rat :=
  match getAttr attrs n with
  | none => .error (.missingField entity n)
  | some v =>
    match parseDec v with
    | some q => .ok q
    | none => .error (.invalidNumber entity n v)

/-- Modelled from the spec: read an optional numeric attribute; absence is
`none`, an unparseable number is still a hard failure. -/
def optNum (entity : String) (attrs : List Attr) (n : String) :
    Except DeError (Option Rat) :=
  match getAttr attrs n with
  | none => .ok none
  | some v =>
    match parseDec v with
    | some q => .ok (some q)
    | none => .error (.invalidNumber entity n v)

/-- Modelled from the spec: a required child element; absence fails the
parse. -/
def reqChild (entity : String) (children : List Xml) (t : String) :
    Except DeError Xml :=
  match findChild children t with
  | some c => .ok c
  | none => .error (.missingField entity t)

/-- Deserialize an `Emisor` from its attribute list (per src/lib.rs). -/
def deEmisorA (a : List Attr) : Except DeError Emisor := do
  let rfc ← reqAttr "Emisor" a "Rfc"
  let nombre ← reqAttr "Emisor" a "Nombre"
  let regimen ← reqAttr "Emisor" a "RegimenFiscal"
  .ok ⟨rfc, nombre, regimen⟩

/-- Deserialize an `Emisor` element. -/
def deEmisor (x : Xml) : Except DeError Emisor :=
  deEmisorA x.attrs

/-- Deserialize a `Receptor` from its attribute list (per src/lib.rs). -/
def deReceptorA (a : List Attr) : Except DeError Receptor := do
  let rfc ← reqAttr "Receptor" a "Rfc"
  let nombre ← reqAttr "Receptor" a "Nombre"
  let regimen ← reqAttr "Receptor" a "RegimenFiscalReceptor"
  let uso ← reqAttr "Receptor" a "UsoCFDI"
  .ok ⟨rfc, nombre, regimen, uso⟩

/-- Deserialize a `Receptor` element. -/
def deReceptor (x : Xml) : Except DeError Receptor :=
  deReceptorA x.attrs

/-- Deserialize a `Concepto` from its attribute list (per src/lib.rs;
`ValorUnitario` is kept as raw text, `Cantidad` and `Importe` are parsed
as numbers). -/
def deConceptoA (a : List Attr) : Except DeError Concepto := do
  let clave ← reqAttr "Concepto" a "ClaveProdServ"
  let cantidad ← reqNum "Concepto" a "Cantidad"
  let claveU ← reqAttr "Concepto" a "ClaveUnidad"
  let descripcion ← reqAttr "Concepto" a "Descripcion"
  let valorU ← reqAttr "Concepto" a "ValorUnitario"
  let importe ← reqNum "Concepto" a "Importe"
  let descuento ← optNum "Concepto" a "Descuento"
  .ok ⟨clave, cantidad, claveU, getAttr a "Unidad", descripcion,
       valorU, importe, descuento⟩

/-- Deserialize a `Concepto` element. -/
def deConcepto (x : Xml) : Except DeError Concepto :=
  deConceptoA x.attrs

/-- Deserialize a list of `Concepto` elements in wire order. -/
def deConceptoList : List Xml → Except DeError (List Concepto)
  | [] => .ok []
  | x :: xs => do
    let c ← deConcepto x
    let rest ← deConceptoList xs
    .ok (c :: rest)

/-- Deserialize a `Conceptos` element from its child list: collect the
`Concepto` children. -/
def deConceptosCh (ch : List Xml) : Except DeError Conceptos := do
  let cs ← deConceptoList (childrenNamed ch "Concepto")
  .ok ⟨cs⟩

/-- Deserialize a `Conceptos` element. -/
def deConceptos (x : Xml) : Except DeError Conceptos :=
  deConceptosCh x.children

/-- Deserialize a `TimbreFiscalDigital` from its attribute list (per
src/lib.rs). -/
def deTimbreA (a : List Attr) : Except DeError TimbreFiscalDigital := do
  let version ← reqAttr "TimbreFiscalDigital" a "Version"
  let uuid ← reqAttr "TimbreFiscalDigital" a "UUID"
  let fecha ← reqAttr "TimbreFiscalDigital" a "FechaTimbrado"
  let cert ← reqAttr "TimbreFiscalDigital" a "NoCertificadoSAT"
  .ok ⟨version, uuid, fecha, cert⟩

/-- Deserialize a `TimbreFiscalDigital` element. -/
def deTimbre (x : Xml) : Except DeError TimbreFiscalDigital :=
  deTimbreA x.attrs

/-- Deserialize a `Complemento` from its child list: its
`TimbreFiscalDigital` child is optional. -/
def deComplementoCh (ch : List Xml) : Except DeError Complemento :=
  match findChild ch "TimbreFiscalDigital" with
  | none => .ok ⟨none⟩
  | some t => do
    let tfd ← deTimbre t
    .ok ⟨some tfd⟩

/-- Deserialize a `Complemento` element. -/
def deComplemento (x : Xml) : Except DeError Complemento :=
  deComplementoCh x.children

/-- Deserialize the optional `Complemento` child of the root. -/
def deComplementoOpt (children : List Xml) :
    Except DeError (Option Complemento) :=
  match findChild children "Complemento" with
  | none => .ok none
  | some cx => do
    let c ← deComplemento cx
    .ok (some c)

/-- Deserialize the `Comprobante` root from its attribute and child
lists, following the field declarations of src/lib.rs: required
attributes `Total`, `SubTotal`, `Fecha`, `TipoDeComprobante`; optional
attributes `FormaPago`, `Descuento`; required children `Emisor`,
`Receptor`, `Conceptos`; optional child `Complemento`. -/
def deComprobanteAC (a : List Attr) (ch : List Xml) :
    Except DeError Comprobante := do
  let total ← reqNum "Comprobante" a "Total"
  let subtotal ← reqNum "Comprobante" a "SubTotal"
  let fecha ← reqAttr "Comprobante" a "Fecha"
  let tipo ← reqAttr "Comprobante" a "TipoDeComprobante"
  let eX ← reqChild "Comprobante" ch "Emisor"
  let emisor ← deEmisor eX
  let rX ← reqChild "Comprobante" ch "Receptor"
  let receptor ← deReceptor rX
  let csX ← reqChild "Comprobante" ch "Conceptos"
  let conceptos ← deConceptos csX
  let complemento ← deComplementoOpt ch
  .ok ⟨total, subtotal, fecha, getAttr a "FormaPago", getAttr a "Descuento",
       tipo, emisor, receptor, conceptos, complemento⟩

/-- Deserialize the `Comprobante` root element. -/
def deComprobante (x : Xml) : Except DeError Comprobante :=
  deComprobanteAC x.attrs x.children

/-- `parse_cfdi` from src/lib.rs: deserialize the document into a
`Comprobante`, or fail with a structured error.  The root element must be
the `Comprobante` wire tag (matched case-sensitively on its local
name). -/
def parse_cfdi (doc : Xml) : Except DeError Comprobante :=
  if localName doc.tag = "Comprobante" then deComprobante doc
  else .error (.malformed "root element is not a Comprobante")

/-- `DatosPrincipales` from src/lib.rs: the flattened summary view. -/
structure DatosPrincipales where
  total : Rat
  subtotal : Rat
  fecha : String
  emisor_nombre : String
  emisor_rfc : String
  receptor_nombre : String
  receptor_rfc : String
  uuid : Option String
  fecha_timbrado : Option String
  conceptos : List Concepto
deriving Repr, DecidableEq

/-- `Comprobante::get_conceptos` from src/lib.rs: an owned copy of the
concept sequence. -/
def Comprobante.get_conceptos (c : Comprobante) : List Concepto :=
  c.conceptos.concepto

/-- `Comprobante::get_uuid` from src/lib.rs. -/
def Comprobante.get_uuid (c : Comprobante) : Option String :=
  match c.complemento with
  | some co => co.timbre_fiscal_digital.map TimbreFiscalDigital.uuid
  | none => none

/-- `Comprobante::get_fecha_timbrado` from src/lib.rs. -/
def Comprobante.get_fecha_timbrado (c : Comprobante) : Option String :=
  match c.complemento with
  | some co => co.timbre_fiscal_digital.map TimbreFiscalDigital.fecha_timbrado
  | none => none

/-- `Comprobante::get_datos_principales` from src/lib.rs. -/
def Comprobante.get_datos_principales (c : Comprobante) : DatosPrincipales :=
  ⟨c.total, c.subtotal, c.fecha, c.emisor.nombre, c.emisor.rfc,
   c.receptor.nombre, c.receptor.rfc, c.get_uuid, c.get_fecha_timbrado,
   c.get_conceptos⟩

/-! ### Document transformations used to state the spec's tolerance
properties -/

/-- Remove the optional `FormaPago` and `Descuento` attributes from the
root element (used to state optional-absence tolerance). -/
def stripOpt (doc : Xml) : Xml :=
  .elem doc.tag
    (doc.attrs.filter (fun a => !(a.name == "FormaPago" || a.name == "Descuento")))
    doc.children

/-- Remove the `Concepto` children of any `Conceptos`-tagged element
(used to state that an empty concept list still parses). -/
def dropConceptos (x : Xml) : Xml :=
  if localName x.tag = "Conceptos" then
    .elem x.tag x.attrs (x.children.filter (fun k => !(localName k.tag == "Concepto")))
  else x

/-- Empty every `Conceptos` child of the root of its `Concepto`
children. -/
def emptyConceptos (doc : Xml) : Xml :=
  .elem doc.tag doc.attrs (doc.children.map dropConceptos)

/-- The attributes of the `Comprobante` element the schema recognizes. -/
def comprobanteAttrs : List String :=
  ["Total", "SubTotal", "Fecha", "FormaPago", "Descuento", "TipoDeComprobante"]

/-- The attributes of the `Emisor` element the schema recognizes. -/
def emisorAttrs : List String := ["Rfc", "Nombre", "RegimenFiscal"]

/-- The attributes of the `Receptor` element the schema recognizes. -/
def receptorAttrs : List String :=
  ["Rfc", "Nombre", "RegimenFiscalReceptor", "UsoCFDI"]

/-- The attributes of the `Concepto` element the schema recognizes. -/
def conceptoAttrs : List String :=
  ["ClaveProdServ", "Cantidad", "ClaveUnidad", "Unidad", "Descripcion",
   "ValorUnitario", "Importe", "Descuento"]

/-- The attributes of the `TimbreFiscalDigital` element the schema
recognizes. -/
def timbreAttrs : List String :=
  ["Version", "UUID", "FechaTimbrado", "NoCertificadoSAT"]

/-- Keep only the recognized attributes of a leaf element and drop all of
its children (leaf entities read no child elements). -/
def scrubLeaf (recog : List String) (x : Xml) : Xml :=
  .elem x.tag (x.attrs.filter (fun a => recog.contains a.name)) []

/-- Remove everything a `Conceptos` element does not recognize: unknown
attributes, non-`Concepto` children, and unknown content inside each
`Concepto`. -/
def scrubConceptos (x : Xml) : Xml :=
  .elem x.tag [] ((childrenNamed x.children "Concepto").map (scrubLeaf conceptoAttrs))

/-- Remove everything a `Complemento` element does not recognize. -/
def scrubComplemento (x : Xml) : Xml :=
  .elem x.tag [] ((childrenNamed x.children "TimbreFiscalDigital").map (scrubLeaf timbreAttrs))

/-- Scrub a child of the root: recognized children are scrubbed
recursively by their entity kind, unrecognized children are removed. -/
def scrubChild (x : Xml) : Option Xml :=
  if localName x.tag = "Emisor" then some (scrubLeaf emisorAttrs x)
  else if localName x.tag = "Receptor" then some (scrubLeaf receptorAttrs x)
  else if localName x.tag = "Conceptos" then some (scrubConceptos x)
  else if localName x.tag = "Complemento" then some (scrubComplemento x)
  else none

/-- Remove all unknown/unsupported elements and attributes anywhere in
the document, keeping exactly the content the schema recognizes. -/
def scrub (doc : Xml) : Xml :=
  .elem doc.tag
    (doc.attrs.filter (fun a => comprobanteAttrs.contains a.name))
    (doc.children.filterMap scrubChild)

mutual

/-- Structural equality of two XML trees up to namespace prefixes on
element tags: same local tag names, same attributes, pointwise equal
children. -/
def eqLocal : Xml → Xml → Bool
  | .elem t₁ a₁ c₁, .elem t₂ a₂ c₂ =>
    (localName t₁ == localName t₂) && (a₁ == a₂) && eqLocalList c₁ c₂

/-- Pointwise `eqLocal` on child lists. -/
def eqLocalList : List Xml → List Xml → Bool
  | [], [] => true
  | x :: xs, y :: ys => eqLocal x y && eqLocalList xs ys
  | _, _ => false

end

/-! ### Concrete sample documents used by the witnesses -/

/-- A well-formed `Emisor` element with a namespace prefix. -/
def emisorX : Xml := .elem "cfdi:Emisor"
  [⟨"Rfc", "AAA010101AAA"⟩, ⟨"Nombre", "ACME"⟩, ⟨"RegimenFiscal", "601"⟩] []

/-- A well-formed `Receptor` element with a namespace prefix. -/
def receptorX : Xml := .elem "cfdi:Receptor"
  [⟨"Rfc", "BBB010101BBB"⟩, ⟨"Nombre", "CLIENT"⟩,
   ⟨"RegimenFiscalReceptor", "605"⟩, ⟨"UsoCFDI", "G03"⟩] []

/-- A `Concepto` element whose `ValorUnitario` is the literal text
`"10.500"`. -/
def conceptoX : Xml := .elem "cfdi:Concepto"
  [⟨"ClaveProdServ", "01010101"⟩, ⟨"Cantidad", "2"⟩, ⟨"ClaveUnidad", "H87"⟩,
   ⟨"Descripcion", "Widget"⟩, ⟨"ValorUnitario", "10.500"⟩,
   ⟨"Importe", "21.00"⟩] []

/-- The `Concepto` value `conceptoX` deserializes to. -/
def conceptoV : Concepto :=
  ⟨"01010101", 2, "H87", none, "Widget", "10.500", 21, none⟩

/-- A `Conceptos` element with a single concept. -/
def conceptosX : Xml := .elem "cfdi:Conceptos" [] [conceptoX]

/-- A minimal well-formed document (namespace-prefixed tags, no
`Complemento`, no `FormaPago`/`Descuento`). -/
def sampleDoc : Xml := .elem "cfdi:Comprobante"
  [⟨"Total", "100.00"⟩, ⟨"SubTotal", "100.00"⟩,
   ⟨"Fecha", "2024-01-01T12:00:00"⟩, ⟨"TipoDeComprobante", "I"⟩]
  [emisorX, receptorX, conceptosX]

/-- The `Comprobante` value `sampleDoc` parses to. -/
def sampleComp : Comprobante :=
  ⟨100, 100, "2024-01-01T12:00:00", none, none, "I",
   ⟨"AAA010101AAA", "ACME", "601"⟩,
   ⟨"BBB010101BBB", "CLIENT", "605", "G03"⟩,
   ⟨[conceptoV]⟩, none⟩

/-- `sampleDoc` with every element tag unprefixed. -/
def sampleDocPlain : Xml := .elem "Comprobante"
  [⟨"Total", "100.00"⟩, ⟨"SubTotal", "100.00"⟩,
   ⟨"Fecha", "2024-01-01T12:00:00"⟩, ⟨"TipoDeComprobante", "I"⟩]
  [.elem "Emisor"
     [⟨"Rfc", "AAA010101AAA"⟩, ⟨"Nombre", "ACME"⟩, ⟨"RegimenFiscal", "601"⟩] [],
   .elem "Receptor"
     [⟨"Rfc", "BBB010101BBB"⟩, ⟨"Nombre", "CLIENT"⟩,
      ⟨"RegimenFiscalReceptor", "605"⟩, ⟨"UsoCFDI", "G03"⟩] [],
   .elem "Conceptos" []
     [.elem "Concepto"
        [⟨"ClaveProdServ", "01010101"⟩, ⟨"Cantidad", "2"⟩,
         ⟨"ClaveUnidad", "H87"⟩, ⟨"Descripcion", "Widget"⟩,
         ⟨"ValorUnitario", "10.500"⟩, ⟨"Importe", "21.00"⟩] []]]

/-- A sample fiscal stamp value. -/
def tfdV : TimbreFiscalDigital :=
  ⟨"1.1", "AAAA-BBBB-CCCC", "2024-01-02T08:00:00", "30001000000400002495"⟩

/-- A document whose `Comprobante` carries a stamped `Complemento`. -/
def stampedDoc : Xml := .elem "cfdi:Comprobante"
  [⟨"Total", "100.00"⟩, ⟨"SubTotal", "100.00"⟩,
   ⟨"Fecha", "2024-01-01T12:00:00"⟩, ⟨"TipoDeComprobante", "I"⟩]
  [emisorX, receptorX, conceptosX,
   .elem "cfdi:Complemento" []
     [.elem "tfd:TimbreFiscalDigital"
        [⟨"Version", "1.1"⟩, ⟨"UUID", "AAAA-BBBB-CCCC"⟩,
         ⟨"FechaTimbrado", "2024-01-02T08:00:00"⟩,
         ⟨"NoCertificadoSAT", "30001000000400002495"⟩] []]]

/-- The `Comprobante` value `stampedDoc` parses to. -/
def stampedComp : Comprobante :=
  ⟨100, 100, "2024-01-01T12:00:00", none, none, "I",
   ⟨"AAA010101AAA", "ACME", "601"⟩,
   ⟨"BBB010101BBB", "CLIENT", "605", "G03"⟩,
   ⟨[conceptoV]⟩, some ⟨some tfdV⟩⟩

/-- A `Comprobante` element lacking the required `Total` attribute. -/
def docNoTotal : Xml := .elem "cfdi:Comprobante"
  [⟨"SubTotal", "100.00"⟩, ⟨"Fecha", "2024-01-01T12:00:00"⟩,
   ⟨"TipoDeComprobante", "I"⟩]
  [emisorX, receptorX, conceptosX]

/-- A `Concepto` element lacking the `Importe` attribute, placed where
the schema does not look (as a direct child of the root). -/
def strayConcepto : Xml := .elem "Concepto"
  [⟨"ClaveProdServ", "01010101"⟩, ⟨"Cantidad", "1"⟩, ⟨"ClaveUnidad", "H87"⟩,
   ⟨"Descripcion", "NoImporte"⟩, ⟨"ValorUnitario", "1.00"⟩] []

/-- `sampleDoc` with `strayConcepto` inserted as an extra root child. -/
def strayDoc : Xml := .elem "cfdi:Comprobante"
  [⟨"Total", "100.00"⟩, ⟨"SubTotal", "100.00"⟩,
   ⟨"Fecha", "2024-01-01T12:00:00"⟩, ⟨"TipoDeComprobante", "I"⟩]
  [emisorX, receptorX, conceptosX, strayConcepto]

/-- Three pairwise distinct `Concepto` elements, in wire order A, B, C. -/
def conceptoA : Xml := .elem "cfdi:Concepto"
  [⟨"ClaveProdServ", "A"⟩, ⟨"Cantidad", "1"⟩, ⟨"ClaveUnidad", "H87"⟩,
   ⟨"Descripcion", "A"⟩, ⟨"ValorUnitario", "1"⟩, ⟨"Importe", "1"⟩] []

/-- Second concept element. -/
def conceptoB : Xml := .elem "cfdi:Concepto"
  [⟨"ClaveProdServ", "B"⟩, ⟨"Cantidad", "2"⟩, ⟨"ClaveUnidad", "H87"⟩,
   ⟨"Descripcion", "B"⟩, ⟨"ValorUnitario", "2"⟩, ⟨"Importe", "4"⟩] []

/-- Third concept element. -/
def conceptoC : Xml := .elem "cfdi:Concepto"
  [⟨"ClaveProdServ", "C"⟩, ⟨"Cantidad", "3"⟩, ⟨"ClaveUnidad", "H87"⟩,
   ⟨"Descripcion", "C"⟩, ⟨"ValorUnitario", "3"⟩, ⟨"Importe", "9"⟩] []

/-- The parsed values of `conceptoA`, `conceptoB`, `conceptoC`. -/
def conceptoVA : Concepto := ⟨"A", 1, "H87", none, "A", "1", 1, none⟩

/-- Parsed value of `conceptoB`. -/
def conceptoVB : Concepto := ⟨"B", 2, "H87", none, "B", "2", 4, none⟩

/-- Parsed value of `conceptoC`. -/
def conceptoVC : Concepto := ⟨"C", 3, "H87", none, "C", "3", 9, none⟩

/-- The `Conceptos` element with children in wire order A, B, C. -/
def conceptosABC : Xml := .elem "cfdi:Conceptos" [] [conceptoA, conceptoB, conceptoC]

/-- A document whose concepts appear in wire order A, B, C. -/
def docABC : Xml := .elem "cfdi:Comprobante"
  [⟨"Total", "14.00"⟩, ⟨"SubTotal", "14.00"⟩,
   ⟨"Fecha", "2024-01-01T12:00:00"⟩, ⟨"TipoDeComprobante", "I"⟩]
  [emisorX, receptorX, conceptosABC]

/-- The `Comprobante` value `docABC` parses to. -/
def compABC : Comprobante :=
  ⟨14, 14, "2024-01-01T12:00:00", none, none, "I",
   ⟨"AAA010101AAA", "ACME", "601"⟩,
   ⟨"BBB010101BBB", "CLIENT", "605", "G03"⟩,
   ⟨[conceptoVA, conceptoVB, conceptoVC]⟩, none⟩

/-- `sampleDoc` with unknown content added everywhere: an unrecognized
`xmlns` attribute and an unrecognized `CfdiRelacionados` sibling block, an
unknown attribute on the `Emisor`, and an unknown child inside the
`Complemento`. -/
def noisyDoc : Xml := .elem "cfdi:Comprobante"
  [⟨"xmlns:cfdi", "http://www.sat.gob.mx/cfd/4"⟩,
   ⟨"Total", "100.00"⟩, ⟨"SubTotal", "100.00"⟩,
   ⟨"Fecha", "2024-01-01T12:00:00"⟩, ⟨"TipoDeComprobante", "I"⟩,
   ⟨"Version", "4.0"⟩]
  [.elem "cfdi:InformacionGlobal" [⟨"Periodicidad", "01"⟩] [],
   .elem "cfdi:CfdiRelacionados" [⟨"TipoRelacion", "01"⟩]
     [.elem "cfdi:CfdiRelacionado" [⟨"UUID", "XXXX"⟩] []],
   emisorX, receptorX, conceptosX,
   .elem "cfdi:Impuestos" [⟨"TotalImpuestosTrasladados", "16.00"⟩] []]

/-- `sampleDoc` with a lower-case root tag (spelling/case mismatch). -/
def docLowerRoot : Xml := .elem "cfdi:comprobante"
  [⟨"Total", "100.00"⟩, ⟨"SubTotal", "100.00"⟩,
   ⟨"Fecha", "2024-01-01T12:00:00"⟩, ⟨"TipoDeComprobante", "I"⟩]
  [emisorX, receptorX, conceptosX]

/-- A document carrying the optional `FormaPago` and `Descuento`
attributes. -/
def docWithOpt : Xml := .elem "cfdi:Comprobante"
  [⟨"Total", "116.00"⟩, ⟨"SubTotal", "100.00"⟩,
   ⟨"Fecha", "2024-01-01T12:00:00"⟩, ⟨"FormaPago", "03"⟩,
   ⟨"Descuento", "0.00"⟩, ⟨"TipoDeComprobante", "I"⟩]
  [emisorX, receptorX, conceptosX]

/-- The `Comprobante` value `docWithOpt` parses to. -/
def compWithOpt : Comprobante :=
  ⟨116, 100, "2024-01-01T12:00:00", some "03", some "0.00", "I",
   ⟨"AAA010101AAA", "ACME", "601"⟩,
   ⟨"BBB010101BBB", "CLIENT", "605", "G03"⟩,
   ⟨[conceptoV]⟩, none⟩

/-! ### Helper lemmas -/

/-- A successful monadic bind in `Except` factors through a successful
first step. -/
theorem bind_ok {α β : Type} {e : Except DeError α} {f : α → Except DeError β}
    {b : β} (h : e >>= f = .ok b) : ∃ a, e = .ok a ∧ f a = .ok b := by
  cases e with
  | error ε => exact absurd h (by simp [Bind.bind, Except.bind])
  | ok a => exact ⟨a, rfl, by simpa [Bind.bind, Except.bind] using h⟩

/-- A successful required string attribute read means the attribute is
present with that value. -/
theorem reqAttr_ok {e : String} {a : List Attr} {n v : String}
    (h : reqAttr e a n = .ok v) : getAttr a n = some v := by
  unfold reqAttr at h
  cases hg : getAttr a n with
  | none => rw [hg] at h; exact absurd h (by simp)
  | some w => rw [hg] at h; injection h with h; rw [h]

/-- A successful required numeric attribute read means the attribute is
present and its text parses to that number. -/
theorem reqNum_ok {e : String} {a : List Attr} {n : String} {q : Rat}
    (h : reqNum e a n = .ok q) :
    ∃ v, getAttr a n = some v ∧ parseDec v = some q := by
  unfold reqNum at h
  cases hg : getAttr a n with
  | none => simp only [hg] at h; exact absurd h (by simp)
  | some v =>
    simp only [hg] at h
    cases hp : parseDec v with
    | none => simp only [hp] at h; exact absurd h (by simp)
    | some r =>
      simp only [hp] at h
      injection h with h
      exact ⟨v, rfl, by rw [hp, h]⟩

/-- A successful required child read means the child is present. -/
theorem reqChild_ok {e : String} {ch : List Xml} {t : String} {x : Xml}
    (h : reqChild e ch t = .ok x) : findChild ch t = some x := by
  unfold reqChild at h
  cases hg : findChild ch t with
  | none => rw [hg] at h; exact absurd h (by simp)
  | some y => rw [hg] at h; injection h with h; rw [h]

/-- Binding a success just applies the continuation. -/
theorem ok_bind {α β : Type} (a : α) (f : α → Except DeError β) :
    (Except.ok a : Except DeError α) >>= f = f a := rfl

/-- Filtering with a predicate implied by the search predicate does not
change the result of `find?`. -/
theorem find_filter_of_imp {α : Type} (l : List α) (p q : α → Bool)
    (h : ∀ x, q x = true → p x = true) :
    (l.filter p).find? q = l.find? q := by
  induction l with
  | nil => rfl
  | cons x xs ih =>
    cases hq : q x with
    | true =>
      rw [List.filter_cons_of_pos (h x hq),
          List.find?_cons_of_pos _ hq, List.find?_cons_of_pos _ hq]
    | false =>
      cases hp : p x with
      | true =>
        rw [List.filter_cons_of_pos hp, List.find?_cons_of_neg _ (by simp [hq]),
            List.find?_cons_of_neg _ (by simp [hq])]
        exact ih
      | false =>
        rw [List.filter_cons_of_neg (by simp [hp]), List.find?_cons_of_neg _ (by simp [hq])]
        exact ih

/-- `find?` returns nothing on a filtered list whose kept elements all
fail the search predicate. -/
theorem find_filter_none {α : Type} (l : List α) (p q : α → Bool)
    (h : ∀ x, p x = true → q x = false) :
    (l.filter p).find? q = none := by
  induction l with
  | nil => rfl
  | cons x xs ih =>
    cases hp : p x with
    | true =>
      rw [List.filter_cons_of_pos hp, List.find?_cons_of_neg _ (by simp [h x hp])]
      exact ih
    | false =>
      rw [List.filter_cons_of_neg (by simp [hp])]
      exact ih

/-- Required numeric reads only depend on the attribute lookup. -/
theorem reqNum_congr {e n : String} {a₁ a₂ : List Attr}
    (h : getAttr a₁ n = getAttr a₂ n) : reqNum e a₁ n = reqNum e a₂ n := by
  unfold reqNum; rw [h]

/-- Required string reads only depend on the attribute lookup. -/
theorem reqAttr_congr {e n : String} {a₁ a₂ : List Attr}
    (h : getAttr a₁ n = getAttr a₂ n) : reqAttr e a₁ n = reqAttr e a₂ n := by
  unfold reqAttr; rw [h]

/-- Optional numeric reads only depend on the attribute lookup. -/
theorem optNum_congr {e n : String} {a₁ a₂ : List Attr}
    (h : getAttr a₁ n = getAttr a₂ n) : optNum e a₁ n = optNum e a₂ n := by
  unfold optNum; rw [h]

/-- `stripOpt` keeps the children. -/
theorem stripOpt_children (doc : Xml) : (stripOpt doc).children = doc.children :=
  rfl

/-- `stripOpt` keeps the tag. -/
theorem stripOpt_tag (doc : Xml) : (stripOpt doc).tag = doc.tag := rfl

/-- `stripOpt` does not disturb any attribute other than `FormaPago` and
`Descuento`. -/
theorem getAttr_stripOpt_keep (doc : Xml) (n : String)
    (h1 : (n == "FormaPago") = false) (h2 : (n == "Descuento") = false) :
    getAttr (stripOpt doc).attrs n = getAttr doc.attrs n := by
  unfold getAttr stripOpt Xml.attrs
  rw [find_filter_of_imp]
  intro x hx
  have hx' : x.name = n := by simpa using hx
  rw [hx', h1, h2]
  rfl

/-- After `stripOpt`, the `FormaPago` attribute is gone. -/
theorem getAttr_stripOpt_fp (doc : Xml) :
    getAttr (stripOpt doc).attrs "FormaPago" = none := by
  unfold getAttr stripOpt Xml.attrs
  rw [find_filter_none]
  · rfl
  · intro x hx
    simp only [Bool.not_eq_eq_eq_not, Bool.not_true, Bool.or_eq_false_iff] at hx
    exact hx.1

/-- After `stripOpt`, the `Descuento` attribute is gone. -/
theorem getAttr_stripOpt_desc (doc : Xml) :
    getAttr (stripOpt doc).attrs "Descuento" = none := by
  unfold getAttr stripOpt Xml.attrs
  rw [find_filter_none]
  · rfl
  · intro x hx
    simp only [Bool.not_eq_eq_eq_not, Bool.not_true, Bool.or_eq_false_iff] at hx
    exact hx.2

/-! ### Claims -/

/-- C4: for every document, the flattened view built by
`get_datos_principales` carries exactly the values of `get_uuid` and
`get_fecha_timbrado` — the projector uses the very same accessors, so the
results are identical to calling them directly. -/
theorem summary_stamp_fields_eq (c : Comprobante) :
    c.get_datos_principales.uuid = c.get_uuid ∧
    c.get_datos_principales.fecha_timbrado = c.get_fecha_timbrado :=
  ⟨rfl, rfl⟩

/-- C3: `get_uuid` is present iff `get_fecha_timbrado` is present, iff
the document has both a `Complemento` and a `TimbreFiscalDigital`; when
present they return `uuid` and `fecha_timbrado` of the stamp.  Both
accessors are total functions (they never fail, even with no
`Complemento`). -/
theorem stamp_presence (c : Comprobante) :
    (c.get_uuid.isSome ↔ c.get_fecha_timbrado.isSome) ∧
    (c.get_uuid.isSome ↔
      ∃ co t, c.complemento = some co ∧ co.timbre_fiscal_digital = some t) ∧
    (∀ co t, c.complemento = some co → co.timbre_fiscal_digital = some t →
      c.get_uuid = some t.uuid ∧
      c.get_fecha_timbrado = some t.fecha_timbrado) := by
  cases hc : c.complemento with
  | none => simp [Comprobante.get_uuid, Comprobante.get_fecha_timbrado, hc]
  | some co =>
    cases ht : co.timbre_fiscal_digital with
    | none =>
      refine ⟨?_, ?_, ?_⟩
      · simp [Comprobante.get_uuid, Comprobante.get_fecha_timbrado, hc, ht]
      · simp [Comprobante.get_uuid, hc, ht]
      · rintro co' t' h1 h2
        injection h1 with h1; subst h1
        rw [ht] at h2; exact absurd h2 (by simp)
    | some t =>
      refine ⟨?_, ?_, ?_⟩
      · simp [Comprobante.get_uuid, Comprobante.get_fecha_timbrado, hc, ht]
      · simp [Comprobante.get_uuid, hc, ht]
      · rintro co' t' h1 h2
        injection h1 with h1; subst h1
        rw [ht] at h2; injection h2 with h2; subst h2
        simp [Comprobante.get_uuid, Comprobante.get_fecha_timbrado, hc, ht]

/-- C3 witness: the accessors evaluated on a concretely stamped
document. -/
theorem stamp_presence_witness :
    stampedComp.get_uuid = some tfdV.uuid ∧
    stampedComp.get_fecha_timbrado = some tfdV.fecha_timbrado :=
  (stamp_presence stampedComp).2.2 ⟨some tfdV⟩ tfdV rfl rfl

/-- C1: parsing a valid document and reading `total`, `subtotal`,
`fecha` and `tipo_comprobante` yields exactly the source attribute values
`Total`, `SubTotal`, `Fecha` and `TipoDeComprobante` — the numeric fields
as parsed decimals, the string fields verbatim. -/
theorem parse_roundtrip_required (doc : Xml) (c : Comprobante)
    (h : parse_cfdi doc = .ok c) :
    (∃ v, getAttr doc.attrs "Total" = some v ∧ parseDec v = some c.total) ∧
    (∃ v, getAttr doc.attrs "SubTotal" = some v ∧ parseDec v = some c.subtotal) ∧
    getAttr doc.attrs "Fecha" = some c.fecha ∧
    getAttr doc.attrs "TipoDeComprobante" = some c.tipo_comprobante := by
  unfold parse_cfdi at h
  split at h
  · unfold deComprobante deComprobanteAC at h
    obtain ⟨total, hTot, h⟩ := bind_ok h
    obtain ⟨subtotal, hSub, h⟩ := bind_ok h
    obtain ⟨fecha, hFec, h⟩ := bind_ok h
    obtain ⟨tipo, hTipo, h⟩ := bind_ok h
    obtain ⟨eX, hEX, h⟩ := bind_ok h
    obtain ⟨em, hEm, h⟩ := bind_ok h
    obtain ⟨rX, hRX, h⟩ := bind_ok h
    obtain ⟨re, hRe, h⟩ := bind_ok h
    obtain ⟨csX, hCsX, h⟩ := bind_ok h
    obtain ⟨cs, hCs, h⟩ := bind_ok h
    obtain ⟨compl, hCompl, h⟩ := bind_ok h
    injection h with h
    subst h
    exact ⟨reqNum_ok hTot, reqNum_ok hSub, reqAttr_ok hFec, reqAttr_ok hTipo⟩
  · exact absurd h (by simp)

/-- C1 witness: the round-trip property evaluated on a concrete valid
document. -/
theorem parse_roundtrip_required_witness :
    (∃ v, getAttr sampleDoc.attrs "Total" = some v ∧
       parseDec v = some sampleComp.total) ∧
    (∃ v, getAttr sampleDoc.attrs "SubTotal" = some v ∧
       parseDec v = some sampleComp.subtotal) ∧
    getAttr sampleDoc.attrs "Fecha" = some sampleComp.fecha ∧
    getAttr sampleDoc.attrs "TipoDeComprobante" = some sampleComp.tipo_comprobante :=
  parse_roundtrip_required sampleDoc sampleComp rfl

/-- C7: a successfully parsed `Concepto` stores `ValorUnitario` as the
raw wire text (its field is a string and receives the attribute value
verbatim), while the structurally parallel `Cantidad` and `Importe` are
parsed as numbers. -/
theorem unit_value_raw (x : Xml) (k : Concepto) (h : deConcepto x = .ok k) :
    getAttr x.attrs "ValorUnitario" = some k.valor_unitario ∧
    (∃ v, getAttr x.attrs "Cantidad" = some v ∧ parseDec v = some k.cantidad) ∧
    (∃ v, getAttr x.attrs "Importe" = some v ∧ parseDec v = some k.importe) := by
  unfold deConcepto deConceptoA at h
  obtain ⟨clave, hClave, h⟩ := bind_ok h
  obtain ⟨cant, hCant, h⟩ := bind_ok h
  obtain ⟨claveU, hClaveU, h⟩ := bind_ok h
  obtain ⟨descr, hDescr, h⟩ := bind_ok h
  obtain ⟨valorU, hValorU, h⟩ := bind_ok h
  obtain ⟨imp, hImp, h⟩ := bind_ok h
  obtain ⟨desc, hDesc, h⟩ := bind_ok h
  injection h with h
  subst h
  exact ⟨reqAttr_ok hValorU, reqNum_ok hCant, reqNum_ok hImp⟩

/-- C7 witness: with `ValorUnitario="10.500"` the parsed concept's
`valor_unitario` is the literal text `"10.500"` (not a normalized
number), while `cantidad` and `importe` hold parsed numbers. -/
theorem unit_value_raw_witness :
    conceptoV.valor_unitario = "10.500" ∧
    (getAttr conceptoX.attrs "ValorUnitario" = some conceptoV.valor_unitario ∧
     (∃ v, getAttr conceptoX.attrs "Cantidad" = some v ∧
        parseDec v = some conceptoV.cantidad) ∧
     (∃ v, getAttr conceptoX.attrs "Importe" = some v ∧
        parseDec v = some conceptoV.importe)) :=
  ⟨rfl, unit_value_raw conceptoX conceptoV rfl⟩

/-- C8: the parsed concept sequence is exactly the in-order image of the
wire `Concepto` children, and the summary's `conceptos` field is the same
sequence as `get_conceptos` — wire order is preserved everywhere,
including the single-concept case. -/
theorem concept_order (doc : Xml) (c : Comprobante)
    (h : parse_cfdi doc = .ok c) :
    ∀ cx, findChild doc.children "Conceptos" = some cx →
      deConceptoList (childrenNamed cx.children "Concepto") =
        .ok c.get_conceptos ∧
      c.get_datos_principales.conceptos = c.get_conceptos := by
  unfold parse_cfdi at h
  split at h
  · unfold deComprobante deComprobanteAC at h
    obtain ⟨total, hTot, h⟩ := bind_ok h
    obtain ⟨subtotal, hSub, h⟩ := bind_ok h
    obtain ⟨fecha, hFec, h⟩ := bind_ok h
    obtain ⟨tipo, hTipo, h⟩ := bind_ok h
    obtain ⟨eX, hEX, h⟩ := bind_ok h
    obtain ⟨em, hEm, h⟩ := bind_ok h
    obtain ⟨rX, hRX, h⟩ := bind_ok h
    obtain ⟨re, hRe, h⟩ := bind_ok h
    obtain ⟨csX, hCsX, h⟩ := bind_ok h
    obtain ⟨cs, hCs, h⟩ := bind_ok h
    obtain ⟨compl, hCompl, h⟩ := bind_ok h
    injection h with h
    subst h
    intro cx hcx
    have hfc := reqChild_ok hCsX
    rw [hfc] at hcx
    injection hcx with hcx
    subst hcx
    unfold deConceptos deConceptosCh at hCs
    obtain ⟨lst, hlst, hok⟩ := bind_ok hCs
    injection hok with hok
    subst hok
    exact ⟨hlst, rfl⟩
  · exact absurd h (by simp)

/-- C8 witness: a document with concepts in wire order A, B, C parses to
the sequence A, B, C in both `get_conceptos` and the summary. -/
theorem concept_order_witness :
    deConceptoList (childrenNamed conceptosABC.children "Concepto") =
      .ok compABC.get_conceptos ∧
    compABC.get_datos_principales.conceptos = compABC.get_conceptos :=
  concept_order docABC compABC rfl conceptosABC rfl

/-- Every element of a successfully deserialized concept list itself
deserializes successfully. -/
theorem deConceptoList_ok_mem {l : List Xml} {cs : List Concepto}
    (h : deConceptoList l = .ok cs) :
    ∀ k ∈ l, ∃ kc, deConcepto k = .ok kc := by
  induction l generalizing cs with
  | nil => intro k hk; exact absurd hk (by simp)
  | cons x xs ih =>
    unfold deConceptoList at h
    obtain ⟨c, hc, h⟩ := bind_ok h
    obtain ⟨rest, hrest, _⟩ := bind_ok h
    intro k hk
    rcases List.mem_cons.mp hk with hkx | hk'
    · subst hkx; exact ⟨c, hc⟩
    · exact ih hrest k hk'

/-- A missing `getAttr` makes a required numeric read fail with a
missing-required-field error. -/
theorem reqNum_none {e : String} {a : List Attr} {n : String}
    (h : getAttr a n = none) :
    reqNum e a n = .error (.missingField e n) := by
  unfold reqNum; rw [h]

/-- C2 (amended): a `Comprobante` root lacking `Total` fails with the
missing-required-field error for `Total`; and whenever a parse succeeds,
every `Concepto` child of the recognized `Conceptos` element carried an
`Importe` attribute — so such a `Concepto` lacking `Importe` makes the
whole deserialization fail.  (No partial document on failure is inherent
in the `Except` result type.) -/
theorem missing_required_fails (doc : Xml)
    (hroot : localName doc.tag = "Comprobante") :
    (getAttr doc.attrs "Total" = none →
      parse_cfdi doc = .error (.missingField "Comprobante" "Total")) ∧
    (∀ c, parse_cfdi doc = .ok c →
      ∀ cx, findChild doc.children "Conceptos" = some cx →
        ∀ k, k ∈ childrenNamed cx.children "Concepto" →
          getAttr k.attrs "Importe" ≠ none) := by
  constructor
  · intro hT
    unfold parse_cfdi
    rw [if_pos hroot]
    unfold deComprobante deComprobanteAC
    rw [reqNum_none hT]
    rfl
  · intro c h cx hcx k hk
    unfold parse_cfdi at h
    rw [if_pos hroot] at h
    unfold deComprobante deComprobanteAC at h
    obtain ⟨total, hTot, h⟩ := bind_ok h
    obtain ⟨subtotal, hSub, h⟩ := bind_ok h
    obtain ⟨fecha, hFec, h⟩ := bind_ok h
    obtain ⟨tipo, hTipo, h⟩ := bind_ok h
    obtain ⟨eX, hEX, h⟩ := bind_ok h
    obtain ⟨em, hEm, h⟩ := bind_ok h
    obtain ⟨rX, hRX, h⟩ := bind_ok h
    obtain ⟨re, hRe, h⟩ := bind_ok h
    obtain ⟨csX, hCsX, h⟩ := bind_ok h
    obtain ⟨cs, hCs, _⟩ := bind_ok h
    have hfc := reqChild_ok hCsX
    rw [hfc] at hcx
    injection hcx with hcx
    subst hcx
    unfold deConceptos deConceptosCh at hCs
    obtain ⟨lst, hlst, _⟩ := bind_ok hCs
    obtain ⟨kc, hkc⟩ := deConceptoList_ok_mem hlst k hk
    unfold deConcepto deConceptoA at hkc
    obtain ⟨clave, hClave, hkc⟩ := bind_ok hkc
    obtain ⟨cant, hCant, hkc⟩ := bind_ok hkc
    obtain ⟨claveU, hClaveU, hkc⟩ := bind_ok hkc
    obtain ⟨descr, hDescr, hkc⟩ := bind_ok hkc
    obtain ⟨valorU, hValorU, hkc⟩ := bind_ok hkc
    obtain ⟨imp, hImp, _⟩ := bind_ok hkc
    obtain ⟨v, hv, _⟩ := reqNum_ok hImp
    rw [hv]
    simp

/-- C2 witness: a concrete root lacking `Total` fails with exactly the
missing-required-field error for `Total`. -/
theorem missing_required_fails_witness :
    parse_cfdi docNoTotal = .error (.missingField "Comprobante" "Total") :=
  (missing_required_fails docNoTotal rfl).1 rfl

/-- C2 counterexample to the claim as stated: `strayDoc` contains a
`Concepto` element lacking `Importe` (as an unrecognized extra child of
the root), yet the whole deserialization succeeds — unknown content is
ignored, so a `Concepto` lacking `Importe` only fails the parse when it
sits in the recognized `Conceptos` list. -/
theorem concepto_without_importe_ignored :
    getAttr strayConcepto.attrs "Importe" = none ∧
    strayConcepto ∈ strayDoc.children ∧
    parse_cfdi strayDoc = .ok sampleComp := by
  refine ⟨rfl, ?_, rfl⟩
  show strayConcepto ∈ [emisorX, receptorX, conceptosX, strayConcepto]
  exact List.mem_cons_of_mem _ (List.mem_cons_of_mem _
    (List.mem_cons_of_mem _ (List.mem_cons_self _ _)))

/-- C5: omitting the optional `FormaPago` and `Descuento` attributes from
an otherwise valid `Comprobante` element still parses successfully, and
the resulting `forma_pago` and `descuento` fields are `none` — no
failure, no default, no sentinel; every other field is unchanged. -/
theorem optional_absence (doc : Xml) (c : Comprobante)
    (h : parse_cfdi doc = .ok c) :
    parse_cfdi (stripOpt doc) =
      .ok ⟨c.total, c.subtotal, c.fecha, none, none, c.tipo_comprobante,
           c.emisor, c.receptor, c.conceptos, c.complemento⟩ := by
  unfold parse_cfdi at h ⊢
  split at h
  case isTrue hroot =>
    rw [if_pos (show localName (stripOpt doc).tag = "Comprobante" from hroot)]
    unfold deComprobante deComprobanteAC at h ⊢
    obtain ⟨total, hTot, h⟩ := bind_ok h
    obtain ⟨subtotal, hSub, h⟩ := bind_ok h
    obtain ⟨fecha, hFec, h⟩ := bind_ok h
    obtain ⟨tipo, hTipo, h⟩ := bind_ok h
    obtain ⟨eX, hEX, h⟩ := bind_ok h
    obtain ⟨em, hEm, h⟩ := bind_ok h
    obtain ⟨rX, hRX, h⟩ := bind_ok h
    obtain ⟨re, hRe, h⟩ := bind_ok h
    obtain ⟨csX, hCsX, h⟩ := bind_ok h
    obtain ⟨cs, hCs, h⟩ := bind_ok h
    obtain ⟨compl, hCompl, h⟩ := bind_ok h
    injection h with h
    subst h
    rw [stripOpt_children,
        reqNum_congr (getAttr_stripOpt_keep doc "Total" rfl rfl), hTot, ok_bind,
        reqNum_congr (getAttr_stripOpt_keep doc "SubTotal" rfl rfl), hSub, ok_bind,
        reqAttr_congr (getAttr_stripOpt_keep doc "Fecha" rfl rfl), hFec, ok_bind,
        reqAttr_congr (getAttr_stripOpt_keep doc "TipoDeComprobante" rfl rfl),
        hTipo, ok_bind,
        hEX, ok_bind, hEm, ok_bind, hRX, ok_bind, hRe, ok_bind,
        hCsX, ok_bind, hCs, ok_bind, hCompl, ok_bind,
        getAttr_stripOpt_fp, getAttr_stripOpt_desc]
  case isFalse => exact absurd h (by simp)

/-- C5 witness: stripping `FormaPago="03"` and `Descuento="0.00"` from a
concrete document parses successfully with both fields absent,
everything else unchanged. -/
theorem optional_absence_witness :
    parse_cfdi (stripOpt docWithOpt) =
      .ok ⟨compWithOpt.total, compWithOpt.subtotal, compWithOpt.fecha,
           none, none, compWithOpt.tipo_comprobante, compWithOpt.emisor,
           compWithOpt.receptor, compWithOpt.conceptos,
           compWithOpt.complemento⟩ :=
  optional_absence docWithOpt compWithOpt rfl

/-- A present `findChild` makes the required-child read succeed with that
child. -/
theorem reqChild_eq {e t : String} {ch : List Xml} {x : Xml}
    (h : findChild ch t = some x) : reqChild e ch t = .ok x := by
  unfold reqChild; rw [h]

/-- `findChild` commutes with mapping a tag-preserving function over the
children. -/
theorem findChild_map {g : Xml → Xml}
    (hg : ∀ x, localName (g x).tag = localName x.tag) (ch : List Xml)
    (t : String) :
    findChild (ch.map g) t = (findChild ch t).map g := by
  induction ch with
  | nil => rfl
  | cons x xs ih =>
    unfold findChild at ih ⊢
    simp only [List.map_cons, List.find?]
    rw [hg x]
    cases hx : (localName x.tag == t) with
    | true => simp [hx]
    | false => simp only [hx]; exact ih

/-- `dropConceptos` keeps the element's local tag. -/
theorem dropConceptos_tag (x : Xml) :
    localName (dropConceptos x).tag = localName x.tag := by
  unfold dropConceptos
  split
  · rfl
  · rfl

/-- The element `findChild` returns bears the local tag that was looked
up. -/
theorem findChild_tag {ch : List Xml} {t : String} {x : Xml}
    (h : findChild ch t = some x) : localName x.tag = t := by
  unfold findChild at h
  have := List.find?_some h
  simpa using this

/-- `dropConceptos` leaves non-`Conceptos` elements unchanged. -/
theorem dropConceptos_of_ne {x : Xml} (h : localName x.tag ≠ "Conceptos") :
    dropConceptos x = x := by
  unfold dropConceptos
  rw [if_neg h]

/-- After removing all `Concepto`-tagged children, none are left. -/
theorem childrenNamed_drop (l : List Xml) :
    childrenNamed (l.filter (fun k => !(localName k.tag == "Concepto")))
      "Concepto" = [] := by
  unfold childrenNamed
  induction l with
  | nil => rfl
  | cons x xs ih =>
    cases hx : (localName x.tag == "Concepto") with
    | true =>
      rw [List.filter_cons_of_neg (by simp [hx])]
      exact ih
    | false =>
      rw [List.filter_cons_of_pos (by simp [hx]),
          List.filter_cons_of_neg (by simp [hx])]
      exact ih

/-- An emptied `Conceptos` element deserializes to the empty concept
list. -/
theorem deConceptos_drop {csX : Xml} (h : localName csX.tag = "Conceptos") :
    deConceptos (dropConceptos csX) = .ok ⟨[]⟩ := by
  unfold dropConceptos
  rw [if_pos h]
  unfold deConceptos deConceptosCh Xml.children
  rw [childrenNamed_drop]
  rfl

/-- Emptying `Conceptos` elements does not disturb the optional
`Complemento` deserialization. -/
theorem deComplementoOpt_map_drop (ch : List Xml) :
    deComplementoOpt (ch.map dropConceptos) = deComplementoOpt ch := by
  unfold deComplementoOpt
  rw [findChild_map dropConceptos_tag]
  cases hfc : findChild ch "Complemento" with
  | none => rfl
  | some cx =>
    simp only [Option.map_some']
    rw [dropConceptos_of_ne (by rw [findChild_tag hfc]; decide)]

/-- C10: removing every `Concepto` child from the `Conceptos` element of
a document that otherwise parses leaves a document that still parses
successfully, with an empty concept sequence — the parser does not
enforce the at-least-one-line-item business rule. -/
theorem empty_conceptos_ok (doc : Xml) (c : Comprobante)
    (h : parse_cfdi doc = .ok c) :
    parse_cfdi (emptyConceptos doc) =
      .ok ⟨c.total, c.subtotal, c.fecha, c.forma_pago, c.descuento,
           c.tipo_comprobante, c.emisor, c.receptor, ⟨[]⟩, c.complemento⟩ := by
  unfold parse_cfdi at h ⊢
  split at h
  case isTrue hroot =>
    rw [if_pos (show localName (emptyConceptos doc).tag = "Comprobante" from hroot)]
    unfold deComprobante deComprobanteAC at h ⊢
    obtain ⟨total, hTot, h⟩ := bind_ok h
    obtain ⟨subtotal, hSub, h⟩ := bind_ok h
    obtain ⟨fecha, hFec, h⟩ := bind_ok h
    obtain ⟨tipo, hTipo, h⟩ := bind_ok h
    obtain ⟨eX, hEX, h⟩ := bind_ok h
    obtain ⟨em, hEm, h⟩ := bind_ok h
    obtain ⟨rX, hRX, h⟩ := bind_ok h
    obtain ⟨re, hRe, h⟩ := bind_ok h
    obtain ⟨csX, hCsX, h⟩ := bind_ok h
    obtain ⟨cs, hCs, h⟩ := bind_ok h
    obtain ⟨compl, hCompl, h⟩ := bind_ok h
    injection h with h
    subst h
    have hattrs : (emptyConceptos doc).attrs = doc.attrs := rfl
    have hch : (emptyConceptos doc).children = doc.children.map dropConceptos := rfl
    have hfE := reqChild_ok hEX
    have hfR := reqChild_ok hRX
    have hfCs := reqChild_ok hCsX
    have hE2 : findChild (doc.children.map dropConceptos) "Emisor" = some eX := by
      rw [findChild_map dropConceptos_tag, hfE, Option.map_some',
          dropConceptos_of_ne (by rw [findChild_tag hfE]; decide)]
    have hR2 : findChild (doc.children.map dropConceptos) "Receptor" = some rX := by
      rw [findChild_map dropConceptos_tag, hfR, Option.map_some',
          dropConceptos_of_ne (by rw [findChild_tag hfR]; decide)]
    have hCs2 : findChild (doc.children.map dropConceptos) "Conceptos" =
        some (dropConceptos csX) := by
      rw [findChild_map dropConceptos_tag, hfCs, Option.map_some']
    rw [hattrs, hch, hTot, ok_bind, hSub, ok_bind, hFec, ok_bind, hTipo, ok_bind,
        reqChild_eq hE2, ok_bind, hEm, ok_bind,
        reqChild_eq hR2, ok_bind, hRe, ok_bind,
        reqChild_eq hCs2, ok_bind, deConceptos_drop (findChild_tag hfCs), ok_bind,
        deComplementoOpt_map_drop, hCompl, ok_bind]
  case isFalse => exact absurd h (by simp)

/-- C10 witness: emptying the concrete sample document's concept list
still parses, producing an empty concept sequence. -/
theorem empty_conceptos_ok_witness :
    parse_cfdi (emptyConceptos sampleDoc) =
      .ok ⟨sampleComp.total, sampleComp.subtotal, sampleComp.fecha,
           sampleComp.forma_pago, sampleComp.descuento,
           sampleComp.tipo_comprobante, sampleComp.emisor,
           sampleComp.receptor, ⟨[]⟩, sampleComp.complemento⟩ :=
  empty_conceptos_ok sampleDoc sampleComp rfl


/-- A missing `findChild` makes the required-child read fail with a
missing-required-field error. -/
theorem reqChild_none {e t : String} {ch : List Xml}
    (h : findChild ch t = none) :
    reqChild e ch t = .error (.missingField e t) := by
  unfold reqChild; rw [h]

/-- Binding a failure keeps the failure. -/
theorem error_bind {α β : Type} (ε : DeError) (f : α → Except DeError β) :
    (Except.error ε : Except DeError α) >>= f = .error ε := rfl

/-- `findChild` over a tag-preserving partial scrub is the scrub of the
found child, provided elements bearing the searched tag are always
kept. -/
theorem findChild_filterMap {f : Xml → Option Xml} {t : String}
    (hTag : ∀ x y, f x = some y → localName y.tag = localName x.tag)
    (hKeep : ∀ x, localName x.tag = t → (f x).isSome = true)
    (ch : List Xml) :
    findChild (ch.filterMap f) t = (findChild ch t).bind f := by
  induction ch with
  | nil => rfl
  | cons x xs ih =>
    unfold findChild at ih ⊢
    simp only [List.filterMap_cons, List.find?]
    cases hfx : f x with
    | none =>
      have hx : (localName x.tag == t) = false := by
        cases hlt : (localName x.tag == t) with
        | true =>
          have := hKeep x (by simpa using hlt)
          rw [hfx] at this
          simp at this
        | false => rfl
      simp only [hx]
      exact ih
    | some y =>
      have hy : (localName y.tag == t) = (localName x.tag == t) := by
        rw [hTag x y hfx]
      simp only [List.find?, hy]
      cases hx : (localName x.tag == t) with
      | true => simp only [Option.bind, hfx]
      | false => simp only [ih]

/-- Filtering the attribute list down to a recognized set does not change
the lookup of a recognized attribute. -/
theorem getAttr_filter_recog (recog : List String) (n : String)
    {a : List Attr} (hc : recog.contains n = true) :
    getAttr (a.filter (fun x => recog.contains x.name)) n = getAttr a n := by
  unfold getAttr
  rw [find_filter_of_imp]
  intro x hx
  have hx2 : x.name = n := by simpa using hx
  rw [hx2]
  exact hc

/-- Scrubbing an `Emisor` element does not change its deserialization. -/
theorem deEmisor_scrub (x : Xml) :
    deEmisor (scrubLeaf emisorAttrs x) = deEmisor x := by
  show deEmisorA (x.attrs.filter (fun y => emisorAttrs.contains y.name)) =
    deEmisorA x.attrs
  unfold deEmisorA
  rw [reqAttr_congr (getAttr_filter_recog emisorAttrs "Rfc" (by decide)),
      reqAttr_congr (getAttr_filter_recog emisorAttrs "Nombre" (by decide)),
      reqAttr_congr (getAttr_filter_recog emisorAttrs "RegimenFiscal" (by decide))]

/-- Scrubbing a `Receptor` element does not change its deserialization. -/
theorem deReceptor_scrub (x : Xml) :
    deReceptor (scrubLeaf receptorAttrs x) = deReceptor x := by
  show deReceptorA (x.attrs.filter (fun y => receptorAttrs.contains y.name)) =
    deReceptorA x.attrs
  unfold deReceptorA
  rw [reqAttr_congr (getAttr_filter_recog receptorAttrs "Rfc" (by decide)),
      reqAttr_congr (getAttr_filter_recog receptorAttrs "Nombre" (by decide)),
      reqAttr_congr
        (getAttr_filter_recog receptorAttrs "RegimenFiscalReceptor" (by decide)),
      reqAttr_congr (getAttr_filter_recog receptorAttrs "UsoCFDI" (by decide))]

/-- Scrubbing a `TimbreFiscalDigital` element does not change its
deserialization. -/
theorem deTimbre_scrub (x : Xml) :
    deTimbre (scrubLeaf timbreAttrs x) = deTimbre x := by
  show deTimbreA (x.attrs.filter (fun y => timbreAttrs.contains y.name)) =
    deTimbreA x.attrs
  unfold deTimbreA
  rw [reqAttr_congr (getAttr_filter_recog timbreAttrs "Version" (by decide)),
      reqAttr_congr (getAttr_filter_recog timbreAttrs "UUID" (by decide)),
      reqAttr_congr (getAttr_filter_recog timbreAttrs "FechaTimbrado" (by decide)),
      reqAttr_congr
        (getAttr_filter_recog timbreAttrs "NoCertificadoSAT" (by decide))]

/-- Scrubbing a `Concepto` element does not change its deserialization. -/
theorem deConcepto_scrub (x : Xml) :
    deConcepto (scrubLeaf conceptoAttrs x) = deConcepto x := by
  show deConceptoA (x.attrs.filter (fun y => conceptoAttrs.contains y.name)) =
    deConceptoA x.attrs
  unfold deConceptoA
  rw [reqAttr_congr (getAttr_filter_recog conceptoAttrs "ClaveProdServ" (by decide)),
      reqNum_congr (getAttr_filter_recog conceptoAttrs "Cantidad" (by decide)),
      reqAttr_congr (getAttr_filter_recog conceptoAttrs "ClaveUnidad" (by decide)),
      reqAttr_congr (getAttr_filter_recog conceptoAttrs "Descripcion" (by decide)),
      reqAttr_congr (getAttr_filter_recog conceptoAttrs "ValorUnitario" (by decide)),
      reqNum_congr (getAttr_filter_recog conceptoAttrs "Importe" (by decide)),
      optNum_congr (getAttr_filter_recog conceptoAttrs "Descuento" (by decide)),
      getAttr_filter_recog conceptoAttrs "Unidad" (by decide)]

/-- `scrubChild` keeps the local tag of the children it keeps. -/
theorem scrubChild_tag :
    ∀ x y, scrubChild x = some y → localName y.tag = localName x.tag := by
  intro x y h
  unfold scrubChild at h
  split_ifs at h <;> injection h with h <;> subst h <;> rfl

/-- `scrubChild` on an `Emisor`-tagged element. -/
theorem scrubChild_emisor {x : Xml} (h : localName x.tag = "Emisor") :
    scrubChild x = some (scrubLeaf emisorAttrs x) := by
  unfold scrubChild
  rw [if_pos h]

/-- `scrubChild` on a `Receptor`-tagged element. -/
theorem scrubChild_receptor {x : Xml} (h : localName x.tag = "Receptor") :
    scrubChild x = some (scrubLeaf receptorAttrs x) := by
  unfold scrubChild
  rw [h, if_neg (by decide), if_pos rfl]

/-- `scrubChild` on a `Conceptos`-tagged element. -/
theorem scrubChild_conceptos {x : Xml} (h : localName x.tag = "Conceptos") :
    scrubChild x = some (scrubConceptos x) := by
  unfold scrubChild
  rw [h, if_neg (by decide), if_neg (by decide), if_pos rfl]

/-- `scrubChild` on a `Complemento`-tagged element. -/
theorem scrubChild_complemento {x : Xml} (h : localName x.tag = "Complemento") :
    scrubChild x = some (scrubComplemento x) := by
  unfold scrubChild
  rw [h, if_neg (by decide), if_neg (by decide), if_neg (by decide), if_pos rfl]

/-- Mapping a tag-preserving function over an already-`childrenNamed`
list is a fixed point of `childrenNamed`. -/
theorem childrenNamed_map_self (l : List Xml) (t : String) (g : Xml → Xml)
    (hg : ∀ x, (g x).tag = x.tag) :
    childrenNamed ((childrenNamed l t).map g) t = (childrenNamed l t).map g := by
  unfold childrenNamed
  rw [List.filter_eq_self]
  intro a ha
  obtain ⟨b, hb, hba⟩ := List.mem_map.mp ha
  subst hba
  have hmem := List.of_mem_filter hb
  show (localName (g b).tag == t) = true
  rw [hg b]
  exact hmem

/-- Scrubbing each concept element leaves the list deserialization
unchanged. -/
theorem deConceptoList_map_scrub (l : List Xml) :
    deConceptoList (l.map (scrubLeaf conceptoAttrs)) = deConceptoList l := by
  induction l with
  | nil => rfl
  | cons x xs ih =>
    simp only [List.map_cons]
    unfold deConceptoList
    rw [deConcepto_scrub, ih]

/-- Scrubbing a `Conceptos` element does not change its
deserialization. -/
theorem deConceptos_scrub (x : Xml) :
    deConceptos (scrubConceptos x) = deConceptos x := by
  show deConceptosCh
      ((childrenNamed x.children "Concepto").map (scrubLeaf conceptoAttrs)) =
    deConceptosCh x.children
  unfold deConceptosCh
  rw [childrenNamed_map_self x.children "Concepto" (scrubLeaf conceptoAttrs)
        (fun y => rfl),
      deConceptoList_map_scrub]

/-- Searching among only the like-tagged children finds the same child. -/
theorem findChild_childrenNamed (l : List Xml) (t : String) :
    findChild (childrenNamed l t) t = findChild l t := by
  unfold findChild childrenNamed
  rw [find_filter_of_imp]
  intro x hx
  exact hx

/-- Scrubbing a `Complemento` element does not change its
deserialization. -/
theorem deComplemento_scrub (x : Xml) :
    deComplemento (scrubComplemento x) = deComplemento x := by
  show deComplementoCh
      ((childrenNamed x.children "TimbreFiscalDigital").map (scrubLeaf timbreAttrs)) =
    deComplementoCh x.children
  unfold deComplementoCh
  rw [@findChild_map (scrubLeaf timbreAttrs) (fun y => rfl)
        (childrenNamed x.children "TimbreFiscalDigital") "TimbreFiscalDigital",
      findChild_childrenNamed]
  cases hfc : findChild x.children "TimbreFiscalDigital" with
  | none => rfl
  | some tX =>
    simp only [Option.map_some']
    rw [deTimbre_scrub]

/-- Scrubbing the root children does not change the optional
`Complemento` deserialization. -/
theorem deComplementoOpt_scrub (ch : List Xml) :
    deComplementoOpt (ch.filterMap scrubChild) = deComplementoOpt ch := by
  unfold deComplementoOpt
  rw [findChild_filterMap scrubChild_tag
    (fun x hx => by rw [scrubChild_complemento hx]; rfl) ch]
  cases hfc : findChild ch "Complemento" with
  | none => rfl
  | some cx =>
    simp only [Option.bind]
    rw [scrubChild_complemento (findChild_tag hfc)]
    simp only [deComplemento_scrub]

/-- C6: removing every unknown/unsupported element and attribute
anywhere in a document (`scrub`) never changes the result of
`parse_cfdi` — unknown content is silently ignored: it neither causes
failure nor changes any parsed field, so a document with unknown content
parses to exactly the same `Comprobante` (or the same error) as the
document with that content removed. -/
theorem unknown_content_ignored (doc : Xml) :
    parse_cfdi (scrub doc) = parse_cfdi doc := by
  unfold parse_cfdi
  by_cases hroot : localName doc.tag = "Comprobante"
  case neg =>
    rw [if_neg (show ¬localName (scrub doc).tag = "Comprobante" from hroot),
        if_neg hroot]
  case pos =>
  rw [if_pos (show localName (scrub doc).tag = "Comprobante" from hroot),
      if_pos hroot]
  unfold deComprobante deComprobanteAC
  rw [show (scrub doc).attrs =
        doc.attrs.filter (fun a => comprobanteAttrs.contains a.name) from rfl,
      show (scrub doc).children = doc.children.filterMap scrubChild from rfl,
      reqNum_congr (getAttr_filter_recog comprobanteAttrs "Total" (by decide)),
      reqNum_congr (getAttr_filter_recog comprobanteAttrs "SubTotal" (by decide)),
      reqAttr_congr (getAttr_filter_recog comprobanteAttrs "Fecha" (by decide)),
      reqAttr_congr
        (getAttr_filter_recog comprobanteAttrs "TipoDeComprobante" (by decide)),
      getAttr_filter_recog comprobanteAttrs "FormaPago" (by decide),
      getAttr_filter_recog comprobanteAttrs "Descuento" (by decide)]
  have hkE : ∀ x : Xml, localName x.tag = "Emisor" → (scrubChild x).isSome = true :=
    fun x hx => by rw [scrubChild_emisor hx]; rfl
  have hkR : ∀ x : Xml, localName x.tag = "Receptor" → (scrubChild x).isSome = true :=
    fun x hx => by rw [scrubChild_receptor hx]; rfl
  have hkC : ∀ x : Xml, localName x.tag = "Conceptos" → (scrubChild x).isSome = true :=
    fun x hx => by rw [scrubChild_conceptos hx]; rfl
  cases reqNum "Comprobante" doc.attrs "Total" with
  | error ε => rw [error_bind, error_bind]
  | ok total =>
  rw [ok_bind, ok_bind]
  cases reqNum "Comprobante" doc.attrs "SubTotal" with
  | error ε => rw [error_bind, error_bind]
  | ok subtotal =>
  rw [ok_bind, ok_bind]
  cases reqAttr "Comprobante" doc.attrs "Fecha" with
  | error ε => rw [error_bind, error_bind]
  | ok fecha =>
  rw [ok_bind, ok_bind]
  cases reqAttr "Comprobante" doc.attrs "TipoDeComprobante" with
  | error ε => rw [error_bind, error_bind]
  | ok tipo =>
  rw [ok_bind, ok_bind]
  cases hfe : findChild doc.children "Emisor" with
  | none =>
    rw [reqChild_none (by rw [findChild_filterMap scrubChild_tag hkE, hfe]; rfl),
        reqChild_none hfe, error_bind, error_bind]
  | some eX =>
    rw [reqChild_eq (show findChild (doc.children.filterMap scrubChild) "Emisor" =
          some (scrubLeaf emisorAttrs eX) by
        rw [findChild_filterMap scrubChild_tag hkE, hfe]
        simp only [Option.bind]
        exact scrubChild_emisor (findChild_tag hfe)),
        reqChild_eq hfe, ok_bind, ok_bind, deEmisor_scrub]
    cases deEmisor eX with
    | error ε => rw [error_bind, error_bind]
    | ok em =>
    rw [ok_bind, ok_bind]
    cases hfr : findChild doc.children "Receptor" with
    | none =>
      rw [reqChild_none (by rw [findChild_filterMap scrubChild_tag hkR, hfr]; rfl),
          reqChild_none hfr, error_bind, error_bind]
    | some rX =>
      rw [reqChild_eq (show findChild (doc.children.filterMap scrubChild) "Receptor" =
            some (scrubLeaf receptorAttrs rX) by
          rw [findChild_filterMap scrubChild_tag hkR, hfr]
          simp only [Option.bind]
          exact scrubChild_receptor (findChild_tag hfr)),
          reqChild_eq hfr, ok_bind, ok_bind, deReceptor_scrub]
      cases deReceptor rX with
      | error ε => rw [error_bind, error_bind]
      | ok re =>
      rw [ok_bind, ok_bind]
      cases hfc : findChild doc.children "Conceptos" with
      | none =>
        rw [reqChild_none (by rw [findChild_filterMap scrubChild_tag hkC, hfc]; rfl),
            reqChild_none hfc, error_bind, error_bind]
      | some csX =>
        rw [reqChild_eq (show findChild (doc.children.filterMap scrubChild) "Conceptos" =
              some (scrubConceptos csX) by
            rw [findChild_filterMap scrubChild_tag hkC, hfc]
            simp only [Option.bind]
            exact scrubChild_conceptos (findChild_tag hfc)),
            reqChild_eq hfc, ok_bind, ok_bind, deConceptos_scrub]
        cases deConceptos csX with
        | error ε => rw [error_bind, error_bind]
        | ok cs =>
        rw [ok_bind, ok_bind, deComplementoOpt_scrub]


/-- Unpacking `eqLocal` on two elements: equal local tags, equal
attributes, pointwise-equal children. -/
theorem eqLocal_elim {x y : Xml} (h : eqLocal x y = true) :
    localName x.tag = localName y.tag ∧ x.attrs = y.attrs ∧
    eqLocalList x.children y.children = true := by
  cases x with | elem t1 a1 c1 =>
  cases y with | elem t2 a2 c2 =>
  unfold eqLocal at h
  simp only [Bool.and_eq_true, beq_iff_eq] at h
  exact ⟨h.1.1, h.1.2, h.2⟩

/-- `findChild` on pointwise `eqLocal` lists finds corresponding
children (or nothing on both). -/
theorem findChild_eqLocalList {c₁ c₂ : List Xml}
    (h : eqLocalList c₁ c₂ = true) (t : String) :
    (findChild c₁ t = none ∧ findChild c₂ t = none) ∨
    (∃ x y, findChild c₁ t = some x ∧ findChild c₂ t = some y ∧
      eqLocal x y = true) := by
  induction c₁ generalizing c₂ with
  | nil =>
    cases c₂ with
    | nil => exact .inl ⟨rfl, rfl⟩
    | cons y ys => unfold eqLocalList at h; exact absurd h (by simp)
  | cons x xs ih =>
    cases c₂ with
    | nil => unfold eqLocalList at h; exact absurd h (by simp)
    | cons y ys =>
      unfold eqLocalList at h
      simp only [Bool.and_eq_true] at h
      obtain ⟨hxy, hrest⟩ := h
      have htag := (eqLocal_elim hxy).1
      cases hyt : (localName y.tag == t) with
      | true =>
        refine .inr ⟨x, y, ?_, ?_, hxy⟩
        · unfold findChild
          simp only [List.find?]
          rw [htag, hyt]
        · unfold findChild
          simp only [List.find?]
          rw [hyt]
      | false =>
        have hx : (localName x.tag == t) = false := by rw [htag]; exact hyt
        have e₁ : findChild (x :: xs) t = findChild xs t := by
          unfold findChild; simp only [List.find?]; rw [hx]
        have e₂ : findChild (y :: ys) t = findChild ys t := by
          unfold findChild; simp only [List.find?]; rw [hyt]
        rw [e₁, e₂]
        exact ih hrest

/-- `childrenNamed` preserves pointwise `eqLocal`. -/
theorem childrenNamed_eqLocalList {c₁ c₂ : List Xml}
    (h : eqLocalList c₁ c₂ = true) (t : String) :
    eqLocalList (childrenNamed c₁ t) (childrenNamed c₂ t) = true := by
  induction c₁ generalizing c₂ with
  | nil =>
    cases c₂ with
    | nil => rfl
    | cons y ys => unfold eqLocalList at h; exact absurd h (by simp)
  | cons x xs ih =>
    cases c₂ with
    | nil => unfold eqLocalList at h; exact absurd h (by simp)
    | cons y ys =>
      unfold eqLocalList at h
      simp only [Bool.and_eq_true] at h
      obtain ⟨hxy, hrest⟩ := h
      have htag := (eqLocal_elim hxy).1
      unfold childrenNamed
      simp only [List.filter]
      rw [htag]
      cases hyt : (localName y.tag == t) with
      | true =>
        show eqLocalList (x :: List.filter _ xs) (y :: List.filter _ ys) = true
        unfold eqLocalList
        rw [hxy]
        have hih := ih hrest
        unfold childrenNamed at hih
        rw [hih]
        rfl
      | false =>
        exact ih hrest

/-- Concept lists of pointwise `eqLocal` elements deserialize
identically (concepts read only attributes). -/
theorem deConceptoList_eqLocal {l₁ l₂ : List Xml}
    (h : eqLocalList l₁ l₂ = true) :
    deConceptoList l₁ = deConceptoList l₂ := by
  induction l₁ generalizing l₂ with
  | nil =>
    cases l₂ with
    | nil => rfl
    | cons y ys => unfold eqLocalList at h; exact absurd h (by simp)
  | cons x xs ih =>
    cases l₂ with
    | nil => unfold eqLocalList at h; exact absurd h (by simp)
    | cons y ys =>
      unfold eqLocalList at h
      simp only [Bool.and_eq_true] at h
      obtain ⟨hxy, hrest⟩ := h
      unfold deConceptoList
      rw [show deConcepto x = deConcepto y by
            unfold deConcepto; rw [(eqLocal_elim hxy).2.1],
          ih hrest]

/-- `Conceptos` deserialization respects `eqLocal` children. -/
theorem deConceptosCh_eqLocal {c₁ c₂ : List Xml}
    (h : eqLocalList c₁ c₂ = true) :
    deConceptosCh c₁ = deConceptosCh c₂ := by
  unfold deConceptosCh
  rw [deConceptoList_eqLocal (childrenNamed_eqLocalList h "Concepto")]

/-- `Complemento` deserialization respects `eqLocal` children. -/
theorem deComplementoCh_eqLocal {c₁ c₂ : List Xml}
    (h : eqLocalList c₁ c₂ = true) :
    deComplementoCh c₁ = deComplementoCh c₂ := by
  unfold deComplementoCh
  rcases findChild_eqLocalList h "TimbreFiscalDigital" with
    ⟨h1, h2⟩ | ⟨tX, tY, h1, h2, hxy⟩
  · rw [h1, h2]
  · rw [h1, h2]
    show (deTimbre tX >>= fun tfd => Except.ok (Complemento.mk (some tfd))) =
      (deTimbre tY >>= fun tfd => Except.ok (Complemento.mk (some tfd)))
    rw [show deTimbre tX = deTimbre tY by
          unfold deTimbre; rw [(eqLocal_elim hxy).2.1]]

/-- Optional `Complemento` deserialization respects `eqLocal`
children. -/
theorem deComplementoOpt_eqLocal {c₁ c₂ : List Xml}
    (h : eqLocalList c₁ c₂ = true) :
    deComplementoOpt c₁ = deComplementoOpt c₂ := by
  unfold deComplementoOpt
  rcases findChild_eqLocalList h "Complemento" with
    ⟨h1, h2⟩ | ⟨cX, cY, h1, h2, hxy⟩
  · rw [h1, h2]
  · rw [h1, h2]
    show (deComplemento cX >>= fun c => Except.ok (some c)) =
      (deComplemento cY >>= fun c => Except.ok (some c))
    rw [show deComplemento cX = deComplemento cY by
          unfold deComplemento
          exact deComplementoCh_eqLocal (eqLocal_elim hxy).2.2]

/-- The parser only looks at local tag names: two documents equal up to
namespace prefixes parse identically. -/
theorem parse_eqLocal {d₁ d₂ : Xml} (h : eqLocal d₁ d₂ = true) :
    parse_cfdi d₁ = parse_cfdi d₂ := by
  obtain ⟨htag, hattrs, hch⟩ := eqLocal_elim h
  unfold parse_cfdi
  rw [htag]
  by_cases hroot : localName d₂.tag = "Comprobante"
  case neg => rw [if_neg hroot, if_neg hroot]
  case pos =>
  rw [if_pos hroot, if_pos hroot]
  unfold deComprobante deComprobanteAC
  rw [hattrs]
  cases reqNum "Comprobante" d₂.attrs "Total" with
  | error ε => rw [error_bind, error_bind]
  | ok total =>
  rw [ok_bind, ok_bind]
  cases reqNum "Comprobante" d₂.attrs "SubTotal" with
  | error ε => rw [error_bind, error_bind]
  | ok subtotal =>
  rw [ok_bind, ok_bind]
  cases reqAttr "Comprobante" d₂.attrs "Fecha" with
  | error ε => rw [error_bind, error_bind]
  | ok fecha =>
  rw [ok_bind, ok_bind]
  cases reqAttr "Comprobante" d₂.attrs "TipoDeComprobante" with
  | error ε => rw [error_bind, error_bind]
  | ok tipo =>
  rw [ok_bind, ok_bind]
  rcases findChild_eqLocalList hch "Emisor" with ⟨h1, h2⟩ | ⟨eX, eY, h1, h2, hxy⟩
  · rw [reqChild_none h1, reqChild_none h2, error_bind, error_bind]
  rw [reqChild_eq h1, reqChild_eq h2, ok_bind, ok_bind,
      show deEmisor eX = deEmisor eY by
        unfold deEmisor; rw [(eqLocal_elim hxy).2.1]]
  cases deEmisor eY with
  | error ε => rw [error_bind, error_bind]
  | ok em =>
  rw [ok_bind, ok_bind]
  rcases findChild_eqLocalList hch "Receptor" with ⟨g1, g2⟩ | ⟨rX, rY, g1, g2, gxy⟩
  · rw [reqChild_none g1, reqChild_none g2, error_bind, error_bind]
  rw [reqChild_eq g1, reqChild_eq g2, ok_bind, ok_bind,
      show deReceptor rX = deReceptor rY by
        unfold deReceptor; rw [(eqLocal_elim gxy).2.1]]
  cases deReceptor rY with
  | error ε => rw [error_bind, error_bind]
  | ok re =>
  rw [ok_bind, ok_bind]
  rcases findChild_eqLocalList hch "Conceptos" with ⟨k1, k2⟩ | ⟨sX, sY, k1, k2, kxy⟩
  · rw [reqChild_none k1, reqChild_none k2, error_bind, error_bind]
  rw [reqChild_eq k1, reqChild_eq k2, ok_bind, ok_bind,
      show deConceptos sX = deConceptos sY by
        unfold deConceptos
        exact deConceptosCh_eqLocal (eqLocal_elim kxy).2.2]
  cases deConceptos sY with
  | error ε => rw [error_bind, error_bind]
  | ok cs =>
  rw [ok_bind, ok_bind, deComplementoOpt_eqLocal hch]

/-- C9: the deserializer maps wire elements to entities by tag name
case-sensitively but namespace-insensitively: two documents that agree up
to namespace prefixes on element tags parse identically; a root whose
local tag is not exactly `Comprobante` (wrong spelling or case) fails to
map to the document entity; and a child found under tag `t` always bears
exactly the local tag `t`. -/
theorem tag_name_matching :
    (∀ d₁ d₂, eqLocal d₁ d₂ = true → parse_cfdi d₁ = parse_cfdi d₂) ∧
    (∀ doc : Xml, localName doc.tag ≠ "Comprobante" →
      parse_cfdi doc = .error (.malformed "root element is not a Comprobante")) ∧
    (∀ (ch : List Xml) (t : String) (x : Xml),
      findChild ch t = some x → localName x.tag = t) :=
  ⟨fun _ _ h => parse_eqLocal h,
   fun _ h => by unfold parse_cfdi; rw [if_neg h],
   fun _ _ _ h => findChild_tag h⟩

/-- C9 witness: the namespace-prefixed sample document parses exactly as
its unprefixed twin, and a lower-case root tag is rejected. -/
theorem tag_name_matching_witness :
    parse_cfdi sampleDoc = parse_cfdi sampleDocPlain ∧
    parse_cfdi docLowerRoot =
      .error (.malformed "root element is not a Comprobante") :=
  ⟨tag_name_matching.1 sampleDoc sampleDocPlain rfl,
   tag_name_matching.2.1 docLowerRoot (by decide)⟩

end Cfdi
